import Mathlib

/-!
Verification of the kalshi-interface pricing and position engine.

The development shallowly embeds the two source files:

* `kalshi_positions.py` — the fee model (`kalshi_fee`), the quote snapshot
  builder (`get_market_summary`), the position normalizer and liquidation
  valuer (`compute_positions`, `realize_now`), and
* `server.py` — the market-state cache (`poll_markets` refresh cycle,
  `sanitize_json`, the bounded event log `add_message`) and the order
  endpoints (`api_buy`/`api_sell` limit-price derivation, `api_cancel_order`).

Python floats are modelled as exact rationals together with the three
non-finite IEEE values (`FVal`), because the source relies on float division
by zero producing infinities/NaN (flat positions) and on pandas left joins
producing NaN columns (positions without a quote), which `sanitize_json`
later replaces by `0`.  Network fetches are modelled as `Except`-valued
inputs to the functions that perform them; the exchange reports prices as
integer cents (`ℤ`).  `round(x, n)` in Python/numpy is round-half-to-even,
modelled by `roundTo`.
-/

namespace KalshiInterface

/-- A Python float value: a finite rational or one of the IEEE non-finite
values (positive infinity, negative infinity, NaN). -/
inductive FVal where
  | fin : ℚ → FVal
  | inf : FVal
  | ninf : FVal
  | nan : FVal
deriving DecidableEq, Repr

/-- Whether a float value is a finite number. -/
def FVal.isFinite : FVal → Bool
  | .fin _ => true
  | _ => false

/-- IEEE division of two finite floats: division by zero yields a signed
infinity (or NaN for 0/0), exactly as numpy/pandas float columns behave. -/
def qdivF (a b : ℚ) : FVal :=
  if b = 0 then
    if a = 0 then .nan else if 0 < a then .inf else .ninf
  else .fin (a / b)

/-- Multiplication of an integer by a float value; NaN propagates, as in
`pos * row["yes_bid_effective"]` when the left join produced a NaN column. -/
def fmulInt (k : ℤ) (v : FVal) : FVal :=
  match v with
  | .fin q => .fin (k * q)
  | .nan => .nan
  | .inf => if 0 < k then .inf else if k < 0 then .ninf else .nan
  | .ninf => if 0 < k then .ninf else if k < 0 then .inf else .nan

/-- Round a rational to the nearest integer, ties to even
(the rounding used by Python `round` and numpy/pandas `.round`). -/
def roundHalfEven (q : ℚ) : ℤ :=
  if q - ⌊q⌋ < 1/2 then ⌊q⌋
  else if 1/2 < q - ⌊q⌋ then ⌊q⌋ + 1
  else if ⌊q⌋ % 2 = 0 then ⌊q⌋ else ⌊q⌋ + 1

/-- `round(q, n)`: round to `n` decimal places, ties to even. -/
def roundTo (n : ℕ) (q : ℚ) : ℚ := (roundHalfEven (q * 10 ^ n) : ℚ) / 10 ^ n

/-- `.round(n)` on a float column: non-finite values pass through unchanged. -/
def froundTo (n : ℕ) : FVal → FVal
  | .fin q => .fin (roundTo n q)
  | v => v

/-! ## kalshi_positions.py -/

/-- `kalshi_fee` (kalshi_positions.py): per-contract taker fee in dollars,
`0.07 * P * (1 - P)`; the function body performs no rounding. -/
def kalshi_fee (price_dollars : ℚ) : ℚ :=
  7/100 * price_dollars * (1 - price_dollars)

/-- One raw market record from the exchange's market listing
(prices are integer cents). -/
structure RawMarket where
  ticker : String
  status : String
  yes_bid : ℤ
  yes_ask : ℤ
  no_bid : ℤ
  no_ask : ℤ
  last_price : ℤ
  yes_sub_title : String
deriving DecidableEq, Repr

/-- One row of the market summary table built by `get_market_summary`
(dollar prices, fee amounts, and fee-adjusted effective prices). -/
structure SummaryRow where
  market_ticker : String
  team : String
  yes_bid : ℚ
  yes_ask : ℚ
  no_bid : ℚ
  no_ask : ℚ
  last_price : ℚ
  yes_bid_effective : ℚ
  yes_ask_effective : ℚ
  no_bid_effective : ℚ
  no_ask_effective : ℚ
  fee_yes_bid : ℚ
  fee_yes_ask : ℚ
  fee_no_bid : ℚ
  fee_no_ask : ℚ
deriving DecidableEq, Repr

/-- The per-market body of the loop in `get_market_summary`. -/
def buildSummaryRow (m : RawMarket) : SummaryRow :=
  let yes_bid : ℚ := m.yes_bid / 100
  let yes_ask : ℚ := m.yes_ask / 100
  let no_bid : ℚ := m.no_bid / 100
  let no_ask : ℚ := m.no_ask / 100
  let fee_yes_bid := kalshi_fee yes_bid
  let fee_yes_ask := kalshi_fee yes_ask
  let fee_no_bid := kalshi_fee no_bid
  let fee_no_ask := kalshi_fee no_ask
  { market_ticker := m.ticker
    team := m.yes_sub_title
    yes_bid := yes_bid
    yes_ask := yes_ask
    no_bid := no_bid
    no_ask := no_ask
    last_price := m.last_price / 100
    yes_bid_effective := yes_bid - fee_yes_bid
    yes_ask_effective := yes_ask + fee_yes_ask
    no_bid_effective := no_bid - fee_no_bid
    no_ask_effective := no_ask + fee_no_ask
    fee_yes_bid := fee_yes_bid
    fee_yes_ask := fee_yes_ask
    fee_no_bid := fee_no_bid
    fee_no_ask := fee_no_ask }

/-- `get_market_summary` (kalshi_positions.py), with the fetched market
listing as input: keep exactly the markets whose status is `"active"`
and build one summary row for each. -/
def get_market_summary (markets : List RawMarket) : List SummaryRow :=
  (markets.filter (fun m => m.status == "active")).map buildSummaryRow

/-- The result record of `realize_now`. -/
structure RealizeResult where
  current_net_value_dollars : ℚ
  current_net_value_per_share : ℚ
  fee_component_dollars : ℚ
  side_to_sell : Option String
deriving DecidableEq, Repr

/-- `realize_now` (kalshi_positions.py): value one position row against the
market summary.  `df_summary[df_summary["market_ticker"] == ticker]` with
`.iloc[0]` is the first matching row, hence `List.find?`. -/
def realize_now (ticker : String) (net_yes_position : ℤ)
    (df_summary : List SummaryRow) : RealizeResult :=
  match df_summary.find? (fun m => m.market_ticker == ticker) with
  | none =>
    { current_net_value_dollars := 0
      current_net_value_per_share := 0
      fee_component_dollars := 0
      side_to_sell := none }
  | some mkt =>
    let abs_pos : ℚ := |(net_yes_position : ℚ)|
    if 0 < net_yes_position then
      { current_net_value_dollars := roundTo 2 (mkt.yes_bid_effective * abs_pos)
        current_net_value_per_share :=
          roundTo 2 (if abs_pos ≠ 0 then mkt.yes_bid_effective * abs_pos / abs_pos else 0)
        fee_component_dollars := roundTo 4 (mkt.fee_yes_bid * abs_pos)
        side_to_sell := some "YES" }
    else if net_yes_position < 0 then
      { current_net_value_dollars := roundTo 2 (mkt.no_bid_effective * abs_pos)
        current_net_value_per_share :=
          roundTo 2 (if abs_pos ≠ 0 then mkt.no_bid_effective * abs_pos / abs_pos else 0)
        fee_component_dollars := roundTo 4 (mkt.fee_no_bid * abs_pos)
        side_to_sell := some "NO" }
    else
      { current_net_value_dollars := 0
        current_net_value_per_share := 0
        fee_component_dollars := 0
        side_to_sell := none }

/-- One record of the exchange's authoritative position ledger, after the
numeric columns were cast to float (dollar amounts as rationals). -/
structure MarketPosition where
  ticker : String
  position : ℤ
  market_exposure_dollars : ℚ
  fees_paid_dollars : ℚ
  realized_pnl_dollars : ℚ
deriving DecidableEq, Repr

/-- One output row of `compute_positions` (the columns the function
returns).  `avg_share_price` and `liquidation_value` are float columns that
can be non-finite, hence `FVal`. -/
structure PositionRow where
  ticker : String
  net_yes_position : ℤ
  avg_share_price : FVal
  fees_paid_dollars : ℚ
  realized_pnl_dollars : ℚ
  market_exposure_dollars : ℚ
  liquidation_value : FVal
deriving DecidableEq, Repr

/-- The `yes_bid_effective` column after the left merge with `df_markets`:
a position whose ticker has no summary row gets a NaN cell (pandas left
join).  Duplicate tickers do not occur; the join is modelled first-match. -/
def joinedYesBidEffective (df_markets : List SummaryRow) (ticker : String) : FVal :=
  match df_markets.find? (fun m => m.market_ticker == ticker) with
  | some m => .fin m.yes_bid_effective
  | none => .nan

/-- The `no_bid_effective` column after the left merge, as above. -/
def joinedNoBidEffective (df_markets : List SummaryRow) (ticker : String) : FVal :=
  match df_markets.find? (fun m => m.market_ticker == ticker) with
  | some m => .fin m.no_bid_effective
  | none => .nan

/-- `compute_liquidation` (inner function of `compute_positions`):
`0.0` for a flat position, otherwise the signed count times the effective
bid of the side to sell (a NaN bid cell propagates). -/
def compute_liquidation (pos : ℤ) (yes_bid_eff no_bid_eff : FVal) : FVal :=
  if pos = 0 then .fin 0
  else if 0 < pos then fmulInt pos yes_bid_eff
  else fmulInt |pos| no_bid_eff

/-- The per-row computation of `compute_positions`: rename `position`,
derive `avg_share_price = (market_exposure_dollars / position.abs()).round(4)`
(float division: `inf`/NaN for a flat position), and the liquidation value
`.round(2)` after the left merge. -/
def computePositionRow (df_markets : List SummaryRow) (p : MarketPosition) :
    PositionRow :=
  { ticker := p.ticker
    net_yes_position := p.position
    avg_share_price := froundTo 4 (qdivF p.market_exposure_dollars |(p.position : ℚ)|)
    fees_paid_dollars := p.fees_paid_dollars
    realized_pnl_dollars := p.realized_pnl_dollars
    market_exposure_dollars := p.market_exposure_dollars
    liquidation_value :=
      froundTo 2 (compute_liquidation p.position
        (joinedYesBidEffective df_markets p.ticker)
        (joinedNoBidEffective df_markets p.ticker)) }

/-- `compute_positions` (kalshi_positions.py), with the fetched position
ledger as input.  An empty ledger yields the empty (well-typed) table. -/
def compute_positions (df_markets : List SummaryRow)
    (market_positions : List MarketPosition) : List PositionRow :=
  market_positions.map (computePositionRow df_markets)

/-! ## server.py -/

/-- One event-log entry (`add_message`); the generated id, timestamp and
structured details are irrelevant to the claims and elided. -/
structure Msg where
  category : String
  text : String
deriving DecidableEq, Repr

/-- `add_message` (server.py): insert at the front, then keep the first 100
entries (`state["messages"] = state["messages"][:100]`). -/
def add_message (m : Msg) (messages : List Msg) : List Msg :=
  (m :: messages).take 100

/-- One cell of a dataframe about to be serialised: `none` is a missing
value, `some v` a float value. -/
abbrev RawCell := Option FVal

/-- A dataframe as a table of cells. -/
abbrev RawTable := List (List RawCell)

/-- The cell action of `sanitize_json` (server.py):
`df.replace([np.inf, -np.inf, None], np.nan).fillna(0)` — a missing or
non-finite cell becomes `0`, a finite cell is kept. -/
def sanitizeCell (c : RawCell) : FVal :=
  match c with
  | some (.fin q) => .fin q
  | _ => .fin 0

/-- `sanitize_json` applied to a whole table. -/
def sanitize_json (t : RawTable) : List (List FVal) :=
  t.map (fun row => row.map sanitizeCell)

/-- The mutable server cache `state` (server.py): the fields the
quotes-and-positions refresh cycle touches, plus the event log. -/
structure ServerState where
  markets : Option (List (List FVal))
  positions : Option (List (List FVal))
  last_pull : Option ℕ
  balance : Option ℚ
  messages : List Msg
deriving DecidableEq, Repr

/-- The unconditional `await asyncio.sleep(0.5)` at the end of every
`poll_markets` iteration, in seconds. -/
def POLL_INTERVAL : ℚ := 1/2

/-- The ERROR entry `poll_markets` appends when an iteration raises. -/
def pollErrorMsg (e : String) : Msg :=
  { category := "ERROR", text := "Polling failed: " ++ e }

/-- One iteration of `poll_markets` (server.py).  The three fallible
network steps are inputs: the market fetch (`get_market_summary`), the
position fetch (`compute_positions`, which receives the market table), and
the balance fetch (`get_user_info`).  The source assigns
`state["markets"]`, `state["positions"]` and `state["last_pull"]` in
sequence and only then calls `get_user_info()`, so a failure there happens
after those writes.  Any raised error is caught by the `except` clause,
which appends one ERROR entry; the sleep interval is returned and is the
same on every path. -/
def poll_markets_cycle (fetchMarkets : Except String RawTable)
    (fetchPositions : RawTable → Except String RawTable)
    (fetchUser : Except String ℚ) (now : ℕ) (s : ServerState) :
    ServerState × ℚ :=
  match fetchMarkets with
  | .error e =>
    ({ s with messages := add_message (pollErrorMsg e) s.messages }, POLL_INTERVAL)
  | .ok df_markets =>
    match fetchPositions df_markets with
    | .error e =>
      ({ s with messages := add_message (pollErrorMsg e) s.messages }, POLL_INTERVAL)
    | .ok df_positions =>
      let s1 : ServerState :=
        { s with
          markets := some (sanitize_json df_markets)
          positions := some (sanitize_json df_positions)
          last_pull := some now }
      match fetchUser with
      | .error e =>
        ({ s1 with messages := add_message (pollErrorMsg e) s1.messages }, POLL_INTERVAL)
      | .ok u => ({ s1 with balance := some u }, POLL_INTERVAL)

/-- The limit price `api_buy` (server.py) submits: look the ticker up in
the cached market table, take the RAW `yes_ask`/`no_ask` dollar price and
apply `math.ceil(ask_price * 100)`.  (`sanitize_json` is the identity on
these finite fields, so the cache is modelled as the summary rows.) -/
def api_buy_price (markets : List SummaryRow) (ticker side : String) : Option ℤ :=
  (markets.find? (fun m => m.market_ticker == ticker)).map
    (fun m => ⌈((if side = "yes" then m.yes_ask else m.no_ask) * 100 : ℚ)⌉)

/-- The limit price `api_sell` (server.py) submits: the RAW
`yes_bid`/`no_bid` with `math.floor(bid_price * 100)`. -/
def api_sell_price (markets : List SummaryRow) (ticker side : String) : Option ℤ :=
  (markets.find? (fun m => m.market_ticker == ticker)).map
    (fun m => ⌊((if side = "yes" then m.yes_bid else m.no_bid) * 100 : ℚ)⌋)

/-- The order record `api_cancel_order` fetches before deciding. -/
structure OrderInfo where
  order_id : String
  ticker : String
  status : String
deriving DecidableEq, Repr

/-- `api_cancel_order` (server.py).  Inputs: the status lookup
(`kalshi_get` on the order, fallible) and the outcome the DELETE would
have (`kalshi_delete`, fallible).  Output: the classified result, whether
the DELETE was actually issued, and the updated event log.  A non-resting
status raises `ValueError` before any DELETE; the `except` clause turns
every raised error into an ERROR log entry and an error response. -/
def api_cancel_order (order_id : String) (lookup : Except String OrderInfo)
    (deleteRes : Except String String) (messages : List Msg) :
    Except String String × Bool × List Msg :=
  match lookup with
  | .error e =>
    (.error e, false,
      add_message { category := "ERROR",
                    text := "Cancel failed for " ++ order_id ++ ": " ++ e } messages)
  | .ok order =>
    if order.status ≠ "resting" then
      let e := "Order " ++ order_id ++ " is not cancelable (status=" ++ order.status ++ ")"
      (.error e, false,
        add_message { category := "ERROR",
                      text := "Cancel failed for " ++ order_id ++ ": " ++ e } messages)
    else
      match deleteRes with
      | .error e =>
        (.error e, true,
          add_message { category := "ERROR",
                        text := "Cancel failed for " ++ order_id ++ ": " ++ e } messages)
      | .ok r =>
        (.ok r, true,
          add_message { category := "ORDER_CANCEL",
                        text := "Cancelled order " ++ order_id ++ " (" ++ order.ticker ++ ")" }
            messages)

/-- A concrete active market with a raw 60¢ yes-ask, used as test input. -/
def cexRawMarket : RawMarket :=
  { ticker := "T1", status := "active", yes_bid := 55, yes_ask := 60,
    no_bid := 40, no_ask := 45, last_price := 58, yes_sub_title := "TeamA" }

/-- A server state before any successful refresh. -/
def emptyState : ServerState :=
  { markets := none, positions := none, last_pull := none,
    balance := none, messages := [] }

/-! ## Theorems -/

/-- C6: the fee function is `0.07 · p · (1 − p)`; for `p ∈ [0,1]` it is
symmetric under `p ↦ 1 − p`, vanishes at the endpoints, attains its maximum
`0.0175` at `p = 1/2`, stays in `[0, 0.0175]`, and therefore the effective
ask `p + fee p` is at least the raw ask and the effective bid `p − fee p`
at most the raw bid. -/
theorem kalshi_fee_model (p : ℚ) (h0 : 0 ≤ p) (h1 : p ≤ 1) :
    kalshi_fee p = 7/100 * p * (1 - p) ∧
    kalshi_fee p = kalshi_fee (1 - p) ∧
    kalshi_fee 0 = 0 ∧ kalshi_fee 1 = 0 ∧
    kalshi_fee (1/2) = 7/400 ∧
    0 ≤ kalshi_fee p ∧ kalshi_fee p ≤ 7/400 ∧
    p ≤ p + kalshi_fee p ∧ p - kalshi_fee p ≤ p := by
  unfold kalshi_fee
  refine ⟨rfl, by ring, by norm_num, by norm_num, by norm_num, ?_, ?_, ?_, ?_⟩
  · nlinarith
  · nlinarith [sq_nonneg (p - 1/2)]
  · nlinarith
  · nlinarith

/-- Witness for C6 at the raw 60¢ ask of the scenario. -/
theorem kalshi_fee_model_witness :
    kalshi_fee (3/5) = 21/1250 ∧ 0 ≤ kalshi_fee (3/5) ∧ kalshi_fee (3/5) ≤ 7/400 := by
  have h := kalshi_fee_model (3/5) (by norm_num) (by norm_num)
  exact ⟨by norm_num [kalshi_fee], h.2.2.2.2.2.1, h.2.2.2.2.2.2.1⟩

/-- C7: the summary table built from a market listing has exactly one row
per active input market (same tickers, in order), every row comes from an
active input market, every active input market contributes its row, and a
listing with no active market yields the empty table. -/
theorem get_market_summary_active_exactly (ms : List RawMarket) :
    (get_market_summary ms).map SummaryRow.market_ticker =
      (ms.filter (fun m => m.status == "active")).map RawMarket.ticker ∧
    (∀ r ∈ get_market_summary ms, ∃ m ∈ ms, m.status = "active" ∧ r = buildSummaryRow m) ∧
    (∀ m ∈ ms, m.status = "active" → buildSummaryRow m ∈ get_market_summary ms) ∧
    ((∀ m ∈ ms, m.status ≠ "active") → get_market_summary ms = []) := by
  refine ⟨?_, ?_, ?_, ?_⟩
  · unfold get_market_summary
    rw [List.map_map]
    rfl
  · intro r hr
    unfold get_market_summary at hr
    rw [List.mem_map] at hr
    obtain ⟨m, hm, rfl⟩ := hr
    rw [List.mem_filter] at hm
    exact ⟨m, hm.1, by simpa using hm.2, rfl⟩
  · intro m hm hact
    unfold get_market_summary
    exact List.mem_map_of_mem _ (List.mem_filter.mpr ⟨hm, by simpa using hact⟩)
  · intro hnone
    unfold get_market_summary
    have : ms.filter (fun m => m.status == "active") = [] := by
      rw [List.filter_eq_nil_iff]
      intro m hm
      simpa using hnone m hm
    rw [this]
    rfl

/-- Witness for C7: a one-market listing whose market is not active yields
the empty table. -/
theorem get_market_summary_active_exactly_witness :
    get_market_summary
      [{ ticker := "T2", status := "closed", yes_bid := 1, yes_ask := 2,
         no_bid := 3, no_ask := 4, last_price := 5, yes_sub_title := "B" }] = [] := by
  have h := get_market_summary_active_exactly
      [{ ticker := "T2", status := "closed", yes_bid := 1, yes_ask := 2,
         no_bid := 3, no_ask := 4, last_price := 5, yes_sub_title := "B" }]
  exact h.2.2.2 (by decide)

/-- C9: after an append the log has at most 100 entries; the new entry is
at the front; the remainder is the first 99 entries of the previous log
unmodified; appending to a log below capacity drops nothing, and appending
at capacity (100 entries) drops exactly the last (oldest) entry. -/
theorem add_message_ring_buffer (m : Msg) (l : List Msg) :
    (add_message m l).length ≤ 100 ∧
    (add_message m l).head? = some m ∧
    (add_message m l).tail = l.take 99 ∧
    (l.length < 100 → add_message m l = m :: l) ∧
    (l.length = 100 → add_message m l = m :: l.dropLast) := by
  have hcons : add_message m l = m :: l.take 99 := by
    unfold add_message
    rw [List.take_succ_cons]
  refine ⟨?_, ?_, ?_, ?_, ?_⟩
  · unfold add_message
    simp [List.length_take]
  · rw [hcons]; rfl
  · rw [hcons]; rfl
  · intro hlt
    rw [hcons, List.take_of_length_le (by omega)]
  · intro heq
    rw [hcons, List.dropLast_eq_take, heq]

/-- Witness for C9: appending to an empty log keeps the single entry. -/
theorem add_message_ring_buffer_witness :
    add_message { category := "INFO", text := "a" } []
      = [{ category := "INFO", text := "a" }] := by
  have h := add_message_ring_buffer { category := "INFO", text := "a" } []
  exact h.2.2.2.1 (by decide)

lemma ceil_cents (a : ℤ) : ⌈((a : ℚ) / 100 * 100 : ℚ)⌉ = a := by
  rw [div_mul_cancel₀ _ (by norm_num : (100 : ℚ) ≠ 0)]
  exact Int.ceil_intCast a

lemma floor_cents (a : ℤ) : ⌊((a : ℚ) / 100 * 100 : ℚ)⌋ = a := by
  rw [div_mul_cancel₀ _ (by norm_num : (100 : ℚ) ≠ 0)]
  exact Int.floor_intCast a

lemma find?_get_market_summary (ms : List RawMarket) (t : String) :
    (get_market_summary ms).find? (fun r => r.market_ticker == t) =
      ((ms.filter (fun m => m.status == "active")).find?
        (fun m => m.ticker == t)).map buildSummaryRow := by
  unfold get_market_summary
  rw [List.find?_map]
  rfl

/-- C1 counterexample: for the cached market built from a raw 60¢ yes-ask,
`api_buy` submits 60¢ — the raw ask — while the effective ask
(`0.6 + fee(0.6) = 0.6168`) rounded up to the cent is 62¢, so the claim's
pricing rule does not hold. -/
theorem api_buy_price_not_effective_ask :
    api_buy_price (get_market_summary [cexRawMarket]) "T1" "yes" = some 60 ∧
    (⌈(buildSummaryRow cexRawMarket).yes_ask_effective * 100⌉ : ℤ) = 62 ∧
    api_buy_price (get_market_summary [cexRawMarket]) "T1" "yes"
      ≠ some ⌈(buildSummaryRow cexRawMarket).yes_ask_effective * 100⌉ := by
  have hfind : api_buy_price (get_market_summary [cexRawMarket]) "T1" "yes"
      = some ⌈((buildSummaryRow cexRawMarket).yes_ask * 100 : ℚ)⌉ := rfl
  have hask : ((buildSummaryRow cexRawMarket).yes_ask * 100 : ℚ) = 60 := by
    norm_num [buildSummaryRow, cexRawMarket]
  have heff : ((buildSummaryRow cexRawMarket).yes_ask_effective * 100 : ℚ) = 1542/25 := by
    norm_num [buildSummaryRow, cexRawMarket, kalshi_fee]
  have h60 : (⌈((buildSummaryRow cexRawMarket).yes_ask * 100 : ℚ)⌉ : ℤ) = 60 := by
    rw [hask, Int.ceil_eq_iff]
    norm_num
  have h62 : (⌈(buildSummaryRow cexRawMarket).yes_ask_effective * 100⌉ : ℤ) = 62 := by
    rw [heff, Int.ceil_eq_iff]
    norm_num
  refine ⟨hfind.trans (by rw [h60]), h62, ?_⟩
  rw [hfind, h60, h62]
  decide

/-- C1 (amended): for a market present in the cached snapshot, the buy
price submitted by `api_buy` equals the market's RAW ask rounded up to the
cent — which is exactly the exchange's integer-cent raw ask — and the sell
price submitted by `api_sell` equals the raw bid rounded down, i.e. the
integer-cent raw bid; the effective (fee-adjusted) prices are not used.
For a raw yes-ask of 60 cents the submitted buy price is 60 cents. -/
theorem api_order_prices_raw (ms : List RawMarket) (t side : String) (m : RawMarket)
    (hm : (ms.filter (fun x => x.status == "active")).find? (fun x => x.ticker == t)
      = some m) :
    api_buy_price (get_market_summary ms) t side
      = some (if side = "yes" then m.yes_ask else m.no_ask) ∧
    api_sell_price (get_market_summary ms) t side
      = some (if side = "yes" then m.yes_bid else m.no_bid) := by
  unfold api_buy_price api_sell_price
  rw [find?_get_market_summary, hm]
  constructor
  · by_cases hside : side = "yes" <;>
      simp [hside, buildSummaryRow, ceil_cents]
  · by_cases hside : side = "yes" <;>
      simp [hside, buildSummaryRow, floor_cents]

/-- Witness for C1 (amended) at the concrete 60¢ market. -/
theorem api_order_prices_raw_witness :
    api_buy_price (get_market_summary [cexRawMarket]) "T1" "yes" = some 60 ∧
    api_sell_price (get_market_summary [cexRawMarket]) "T1" "yes" = some 55 := by
  have h := api_order_prices_raw [cexRawMarket] "T1" "yes" cexRawMarket (by decide)
  exact ⟨h.1, h.2⟩

/-- C2 counterexample: a cycle whose market and position fetches succeed
but whose balance fetch (`get_user_info`, called after the cache writes)
raises leaves the quotes table overwritten with the new value — the
snapshot is partially updated even though a step of the cycle raised. -/
theorem poll_cycle_partial_overwrite :
    (poll_markets_cycle (.ok [[some (.fin 1)]]) (fun _ => .ok []) (.error "boom")
        5 emptyState).1.markets = some [[FVal.fin 1]] ∧
    emptyState.markets = none ∧
    (poll_markets_cycle (.ok [[some (.fin 1)]]) (fun _ => .ok []) (.error "boom")
        5 emptyState).1.markets ≠ emptyState.markets := by
  refine ⟨rfl, rfl, by decide⟩

/-- C2 (amended): if the market fetch or the position fetch/compute step
raises — i.e. the failure happens before any cache write — then every
field of the snapshot (quotes, positions, timestamp, balance) is
unchanged, exactly one ERROR entry is appended to the event log, and the
next cycle runs after the normal interval.  (A failure in the balance
fetch, which the code performs after the first three writes, instead
leaves those fields overwritten; see the counterexample.) -/
theorem poll_cycle_early_failure_atomic (fetchMarkets : Except String RawTable)
    (fetchPositions : RawTable → Except String RawTable)
    (fetchUser : Except String ℚ) (now : ℕ) (s : ServerState) (e : String)
    (h : fetchMarkets = .error e ∨
      ∃ dfm, fetchMarkets = .ok dfm ∧ fetchPositions dfm = .error e) :
    (poll_markets_cycle fetchMarkets fetchPositions fetchUser now s).1.markets
        = s.markets ∧
    (poll_markets_cycle fetchMarkets fetchPositions fetchUser now s).1.positions
        = s.positions ∧
    (poll_markets_cycle fetchMarkets fetchPositions fetchUser now s).1.last_pull
        = s.last_pull ∧
    (poll_markets_cycle fetchMarkets fetchPositions fetchUser now s).1.balance
        = s.balance ∧
    (poll_markets_cycle fetchMarkets fetchPositions fetchUser now s).1.messages
        = add_message (pollErrorMsg e) s.messages ∧
    (poll_markets_cycle fetchMarkets fetchPositions fetchUser now s).2
        = POLL_INTERVAL := by
  rcases h with rfl | ⟨dfm, rfl, hfp⟩
  · exact ⟨rfl, rfl, rfl, rfl, rfl, rfl⟩
  · simp [poll_markets_cycle, hfp]

/-- Witness for C2 (amended): a failing market fetch leaves the quotes
table of the fresh server state untouched and appends the ERROR entry. -/
theorem poll_cycle_early_failure_atomic_witness :
    (poll_markets_cycle (.error "boom") (fun df => .ok df) (.ok 0) 0
        emptyState).1.markets = none ∧
    (poll_markets_cycle (.error "boom") (fun df => .ok df) (.ok 0) 0
        emptyState).1.messages = [pollErrorMsg "boom"] := by
  have h := poll_cycle_early_failure_atomic (.error "boom") (fun df => .ok df)
    (.ok 0) 0 emptyState "boom" (Or.inl rfl)
  exact ⟨h.1.trans rfl, h.2.2.2.2.1.trans rfl⟩

lemma roundTo_zero (n : ℕ) : roundTo n 0 = 0 := by
  simp [roundTo, roundHalfEven]

/-- C3 counterexample: a flat position (count 0) with positive exposure:
the float division by `position.abs() = 0` makes the reported average
cost positive infinity, not 0. -/
theorem avg_share_price_zero_not_zero :
    (compute_positions [] [⟨"T1", 0, 1, 0, 0⟩]).map PositionRow.avg_share_price
      = [FVal.inf] ∧
    FVal.inf ≠ FVal.fin 0 := by
  constructor
  · simp [compute_positions, computePositionRow, qdivF, froundTo]
  · decide

/-- C3 (amended): every ledger record yields a reported row; for a nonzero
count the average cost per unit is exposure divided by |count|, rounded
half-even to 4 decimal places; for a zero count the division by zero makes
the raw average cost non-finite (positive/negative infinity or NaN), and
it becomes 0 only through the server's `sanitize_json` before caching —
the position is still reported either way. -/
theorem avg_share_price_spec (df_markets : List SummaryRow)
    (data : List MarketPosition) (p : MarketPosition) (hp : p ∈ data) :
    computePositionRow df_markets p ∈ compute_positions df_markets data ∧
    (p.position ≠ 0 →
      (computePositionRow df_markets p).avg_share_price
        = .fin (roundTo 4 (p.market_exposure_dollars / |(p.position : ℚ)|))) ∧
    (p.position = 0 →
      (computePositionRow df_markets p).avg_share_price.isFinite = false ∧
      sanitizeCell (some ((computePositionRow df_markets p).avg_share_price))
        = .fin 0) := by
  refine ⟨List.mem_map_of_mem _ hp, ?_, ?_⟩
  · intro hne
    have hq : ((p.position : ℚ)) ≠ 0 := Int.cast_ne_zero.mpr hne
    have habs : |((p.position : ℚ))| ≠ 0 := abs_ne_zero.mpr hq
    simp [computePositionRow, qdivF, habs, froundTo]
  · intro h0
    have habs : |((p.position : ℚ))| = 0 := by simp [h0]
    have hq : qdivF p.market_exposure_dollars |((p.position : ℚ))|
        = if p.market_exposure_dollars = 0 then .nan
          else if 0 < p.market_exposure_dollars then .inf else .ninf := by
      rw [habs]
      simp [qdivF]
    constructor
    · simp only [computePositionRow, hq]
      split_ifs <;> rfl
    · simp only [computePositionRow, hq]
      split_ifs <;> rfl

/-- Witness for C3 (amended): two contracts at $3 exposure cost $1.50 each. -/
theorem avg_share_price_spec_witness :
    (computePositionRow [] ⟨"T1", 2, 3, 0, 0⟩).avg_share_price
      = .fin (roundTo 4 (3 / |((2 : ℤ) : ℚ)|)) := by
  have h := avg_share_price_spec [] [⟨"T1", 2, 3, 0, 0⟩] _ (List.mem_singleton.mpr rfl)
  exact h.2.1 (by decide)

/-- C4 counterexample: a one-contract position whose ticker is absent from
the quote table still appears, but its liquidation value is NaN — the left
join produced a NaN effective bid and `pos * NaN = NaN` — not 0. -/
theorem liquidation_missing_quote_nan :
    (compute_positions [] [⟨"T2", 1, 0, 0, 0⟩]).map PositionRow.liquidation_value
      = [FVal.nan] ∧
    FVal.nan ≠ FVal.fin 0 := by
  constructor
  · simp [compute_positions, computePositionRow, compute_liquidation,
      joinedYesBidEffective, joinedNoBidEffective, fmulInt, froundTo]
  · decide

/-- C4 (amended): a normalized position whose market key is absent from
the current quote snapshot still appears in the valued output (left join);
in the `realize_now` valuer its value, per-share value and fee component
are all zero with no side; in `compute_positions` its liquidation value is
zero when the count is zero but NaN when the count is nonzero, becoming 0
only through the server's `sanitize_json` before caching. -/
theorem missing_quote_left_join (df_markets : List SummaryRow)
    (data : List MarketPosition) (p : MarketPosition) (hp : p ∈ data)
    (hmiss : df_markets.find? (fun m => m.market_ticker == p.ticker) = none) :
    computePositionRow df_markets p ∈ compute_positions df_markets data ∧
    realize_now p.ticker p.position df_markets
      = { current_net_value_dollars := 0, current_net_value_per_share := 0,
          fee_component_dollars := 0, side_to_sell := none } ∧
    (p.position = 0 →
      (computePositionRow df_markets p).liquidation_value = .fin 0) ∧
    (p.position ≠ 0 →
      (computePositionRow df_markets p).liquidation_value = .nan) ∧
    sanitizeCell (some ((computePositionRow df_markets p).liquidation_value))
      = .fin 0 := by
  have hj1 : joinedYesBidEffective df_markets p.ticker = .nan := by
    simp [joinedYesBidEffective, hmiss]
  have hj2 : joinedNoBidEffective df_markets p.ticker = .nan := by
    simp [joinedNoBidEffective, hmiss]
  have hzero : p.position = 0 →
      (computePositionRow df_markets p).liquidation_value = .fin 0 := by
    intro h0
    simp [computePositionRow, compute_liquidation, h0, froundTo, roundTo_zero]
  have hnz : p.position ≠ 0 →
      (computePositionRow df_markets p).liquidation_value = .nan := by
    intro hne
    have hcl : compute_liquidation p.position FVal.nan FVal.nan = .nan := by
      unfold compute_liquidation
      split_ifs with h1 h2
      · exact absurd h1 hne
      · rfl
      · rfl
    simp [computePositionRow, hj1, hj2, hcl, froundTo]
  refine ⟨List.mem_map_of_mem _ hp, ?_, hzero, hnz, ?_⟩
  · simp [realize_now, hmiss]
  · by_cases h0 : p.position = 0
    · rw [hzero h0]; rfl
    · rw [hnz h0]; rfl

/-- Witness for C4 (amended): against an empty quote table, `realize_now`
reports a one-contract position as worth zero with no side. -/
theorem missing_quote_left_join_witness :
    realize_now "T2" 1 []
      = { current_net_value_dollars := 0, current_net_value_per_share := 0,
          fee_component_dollars := 0, side_to_sell := none } := by
  have h := missing_quote_left_join [] [⟨"T2", 1, 0, 0, 0⟩] _
    (List.mem_singleton.mpr rfl) rfl
  exact h.2.1

/-- C5: valuation against a present quote: a flat position values to zero
with no fee and no side; a positive count sells YES at the effective
yes-bid with value rounded to 2 decimals and fee component to 4; a
negative count sells NO at the effective no-bid; the selected side is YES
exactly when the count is positive, NO exactly when it is negative, and
none exactly when it is zero (so exactly one side is ever selected); and
`compute_liquidation` selects the same single side. -/
theorem realize_now_present_quote (t : String) (net : ℤ)
    (df : List SummaryRow) (mkt : SummaryRow)
    (hfind : df.find? (fun m => m.market_ticker == t) = some mkt) :
    (net = 0 → realize_now t net df =
      { current_net_value_dollars := 0, current_net_value_per_share := 0,
        fee_component_dollars := 0, side_to_sell := none }) ∧
    (0 < net → realize_now t net df =
      { current_net_value_dollars := roundTo 2 (mkt.yes_bid_effective * |(net : ℚ)|),
        current_net_value_per_share := roundTo 2 mkt.yes_bid_effective,
        fee_component_dollars := roundTo 4 (mkt.fee_yes_bid * |(net : ℚ)|),
        side_to_sell := some "YES" }) ∧
    (net < 0 → realize_now t net df =
      { current_net_value_dollars := roundTo 2 (mkt.no_bid_effective * |(net : ℚ)|),
        current_net_value_per_share := roundTo 2 mkt.no_bid_effective,
        fee_component_dollars := roundTo 4 (mkt.fee_no_bid * |(net : ℚ)|),
        side_to_sell := some "NO" }) ∧
    ((realize_now t net df).side_to_sell = some "YES" ↔ 0 < net) ∧
    ((realize_now t net df).side_to_sell = some "NO" ↔ net < 0) ∧
    ((realize_now t net df).side_to_sell = none ↔ net = 0) ∧
    (compute_liquidation net (.fin mkt.yes_bid_effective) (.fin mkt.no_bid_effective)
      = if net = 0 then .fin 0
        else if 0 < net then .fin (net * mkt.yes_bid_effective)
        else .fin (|net| * mkt.no_bid_effective)) := by
  have habs : net ≠ 0 → |((net : ℚ))| ≠ 0 := fun hne =>
    abs_ne_zero.mpr (Int.cast_ne_zero.mpr hne)
  have h0 : net = 0 → realize_now t net df =
      { current_net_value_dollars := 0, current_net_value_per_share := 0,
        fee_component_dollars := 0, side_to_sell := none } := by
    intro h
    simp [realize_now, hfind, h]
  have hpos : 0 < net → realize_now t net df =
      { current_net_value_dollars := roundTo 2 (mkt.yes_bid_effective * |(net : ℚ)|),
        current_net_value_per_share := roundTo 2 mkt.yes_bid_effective,
        fee_component_dollars := roundTo 4 (mkt.fee_yes_bid * |(net : ℚ)|),
        side_to_sell := some "YES" } := by
    intro h
    simp [realize_now, hfind, h, habs h.ne', mul_div_cancel_right₀]
  have hneg : net < 0 → realize_now t net df =
      { current_net_value_dollars := roundTo 2 (mkt.no_bid_effective * |(net : ℚ)|),
        current_net_value_per_share := roundTo 2 mkt.no_bid_effective,
        fee_component_dollars := roundTo 4 (mkt.fee_no_bid * |(net : ℚ)|),
        side_to_sell := some "NO" } := by
    intro h
    simp [realize_now, hfind, h, lt_asymm h, habs h.ne, mul_div_cancel_right₀]
  refine ⟨h0, hpos, hneg, ?_, ?_, ?_, ?_⟩
  · rcases lt_trichotomy net 0 with h | h | h
    · rw [hneg h]
      simp [h, lt_asymm h]
    · rw [h0 h]
      simp [h]
    · rw [hpos h]
      simp [h]
  · rcases lt_trichotomy net 0 with h | h | h
    · rw [hneg h]
      simp [h]
    · rw [h0 h]
      simp [h]
    · rw [hpos h]
      simp [h, lt_asymm h]
  · rcases lt_trichotomy net 0 with h | h | h
    · rw [hneg h]
      simp [h.ne]
    · rw [h0 h]
      simp [h]
    · rw [hpos h]
      simp [h.ne']
  · unfold compute_liquidation
    split_ifs <;> rfl

/-- Witness for C5: one contract long YES against a present quote sells
the YES side. -/
theorem realize_now_present_quote_witness :
    (realize_now "T1" 1 [buildSummaryRow cexRawMarket]).side_to_sell
      = some "YES" := by
  have h := realize_now_present_quote "T1" 1 [buildSummaryRow cexRawMarket]
    (buildSummaryRow cexRawMarket) (List.find?_cons_of_pos _ rfl)
  exact h.2.2.2.1.mpr (by norm_num)

/-- C8: with the status lookup succeeding, a status other than "resting"
makes `api_cancel_order` fail with the not-cancelable error without
issuing any DELETE to the exchange, while a "resting" status issues the
DELETE and appends exactly one log entry for the outcome. -/
theorem api_cancel_order_spec (order_id : String) (o : OrderInfo)
    (deleteRes : Except String String) (msgs : List Msg) :
    (o.status ≠ "resting" →
      (api_cancel_order order_id (.ok o) deleteRes msgs).1
        = .error ("Order " ++ order_id ++ " is not cancelable (status="
            ++ o.status ++ ")") ∧
      (api_cancel_order order_id (.ok o) deleteRes msgs).2.1 = false) ∧
    (o.status = "resting" →
      (api_cancel_order order_id (.ok o) deleteRes msgs).2.1 = true ∧
      ∃ entry, (api_cancel_order order_id (.ok o) deleteRes msgs).2.2
        = add_message entry msgs) := by
  constructor
  · intro hne
    constructor
    · simp [api_cancel_order, hne]
    · simp [api_cancel_order, hne]
  · intro heq
    cases deleteRes with
    | error e =>
      refine ⟨by simp [api_cancel_order, heq],
        ⟨"ERROR", "Cancel failed for " ++ order_id ++ ": " ++ e⟩,
        by simp [api_cancel_order, heq]⟩
    | ok r =>
      refine ⟨by simp [api_cancel_order, heq],
        ⟨"ORDER_CANCEL", "Cancelled order " ++ order_id ++ " (" ++ o.ticker ++ ")"⟩,
        by simp [api_cancel_order, heq]⟩

/-- Witness for C8: an order whose status is "executed" is rejected with
no DELETE issued. -/
theorem api_cancel_order_spec_witness :
    (api_cancel_order "o1" (.ok ⟨"o1", "T1", "executed"⟩) (.ok "done") []).2.1
      = false := by
  have h := api_cancel_order_spec "o1" ⟨"o1", "T1", "executed"⟩ (.ok "done") []
  exact (h.1 (by decide)).2

/-- C10: a successful refresh cycle stores `sanitize_json` of both tables
in the cache; every cell of a sanitized table is a finite number; the
sanitizer keeps a finite cell and turns a missing, infinite or NaN cell
into 0. -/
theorem sanitize_json_cached_finite (dfm dfp : RawTable) (u : ℚ) (now : ℕ)
    (s : ServerState) :
    (poll_markets_cycle (.ok dfm) (fun _ => .ok dfp) (.ok u) now s).1.markets
      = some (sanitize_json dfm) ∧
    (poll_markets_cycle (.ok dfm) (fun _ => .ok dfp) (.ok u) now s).1.positions
      = some (sanitize_json dfp) ∧
    (∀ t : RawTable, ∀ row ∈ sanitize_json t, ∀ c ∈ row, c.isFinite = true) ∧
    (∀ q : ℚ, sanitizeCell (some (.fin q)) = .fin q) ∧
    sanitizeCell none = .fin 0 ∧ sanitizeCell (some .inf) = .fin 0 ∧
    sanitizeCell (some .ninf) = .fin 0 ∧ sanitizeCell (some .nan) = .fin 0 := by
  refine ⟨rfl, rfl, ?_, fun q => rfl, rfl, rfl, rfl, rfl⟩
  intro t row hrow c hc
  simp only [sanitize_json, List.mem_map] at hrow
  obtain ⟨row0, _, rfl⟩ := hrow
  rw [List.mem_map] at hc
  obtain ⟨c0, _, rfl⟩ := hc
  cases c0 with
  | none => rfl
  | some v => cases v <;> rfl

/-- Witness for C10: a table holding an infinity and a missing value is
cached as zeros. -/
theorem sanitize_json_cached_finite_witness :
    (poll_markets_cycle (.ok [[some FVal.inf, none]]) (fun _ => .ok [])
        (.ok 0) 7 emptyState).1.markets
      = some [[FVal.fin 0, FVal.fin 0]] := by
  have h := sanitize_json_cached_finite [[some FVal.inf, none]] [] 0 7 emptyState
  exact h.1.trans rfl

end KalshiInterface
